import Mathlib

/-!
Verification of the MetaDoc Document Analysis & Heuristic Insights Pipeline.

Shallow embedding of the backend services:
- `app/services/insights_service.py`  (timeliness classification, contribution growth)
- `app/services/metadata_service.py`  (metadata extraction, content statistics, snapshots)
- `app/api/metadata.py`               (analysis orchestration, reprocessing)

Machine conventions used throughout:
- Python `datetime` values are modelled by `PyDateTime` (wall-clock seconds plus an
  optional UTC-offset; `none` = naive).  `pytz` zone lookup is a parameter
  `tzdb : String → Option ℤ` (a zone name resolves to an offset, or raises = `none`).
- Python `round` (banker's rounding, half to even) is `pyRound`; `round(x, 2)` is `round2`.
- Python string truthiness (`if s:`) is `s ≠ ""` on `String` / `truthy` on `Option String`.
- Fallible external calls (file system, python-docx, zipfile) enter the embedding as
  `Except`/`Option`-valued inputs describing what the library call produced.
-/

/-- Python's built-in `round` on an exact rational: round half to even. -/
def pyRound (q : ℚ) : ℤ :=
  let f := ⌊q⌋
  let r := q - (f : ℚ)
  if r < 1/2 then f
  else if 1/2 < r then f + 1
  else if f % 2 = 0 then f else f + 1

/-- Python's `round(x, 2)` on an exact rational. -/
def round2 (q : ℚ) : ℚ := (pyRound (q * 100) : ℚ) / 100

/-- Python `int(s)` for the canonical digit strings that reach it in this code base. -/
def pyInt (s : String) : Option ℕ := s.toNat?

/-- Truthiness of an optional string: `None` and `''` are falsy. -/
def truthy (o : Option String) : Option String :=
  o.bind (fun s => if s = "" then none else some s)

/-- Python `not x` for an optional string (`None` and `''` are falsy). -/
def pyFalsy (o : Option String) : Bool :=
  match o with
  | none => true
  | some s => s = ""

/-- `listStartsWith pat l` = `l` begins with `pat`. -/
def listStartsWith : List Char → List Char → Bool
  | [], _ => true
  | _ :: _, [] => false
  | a :: as, b :: bs => a = b && listStartsWith as bs

/-- Substring occurrence on char lists (Python's `pat in s`). -/
def listHasSub (pat : List Char) : List Char → Bool
  | [] => pat.isEmpty
  | c :: cs => listStartsWith pat (c :: cs) || listHasSub pat cs

/-- Python's `pat in s` on strings. -/
def strHasSub (pat s : String) : Bool := listHasSub pat.data s.data

/-- The ASCII whitespace characters recognised by Python's `str.split()`/`str.strip()`. -/
def isPyWhitespace (c : Char) : Bool :=
  c = ' ' || c = '\t' || c = '\n' || c = '\r' || c = '\x0b' || c = '\x0c'

/-- Sentence-terminal punctuation of the regex `[.!?]`. -/
def isSentenceEnd (c : Char) : Bool := c = '.' || c = '!' || c = '?'

/-- Python `str.strip()` on a char list. -/
def stripChars (l : List Char) : List Char :=
  ((l.dropWhile isPyWhitespace).reverse.dropWhile isPyWhitespace).reverse

/-- Split at every delimiter character, keeping empty segments
(Python `str.split('\n')`, or `re.split` with a single-character class). -/
def splitAll (p : Char → Bool) : List Char → List (List Char)
  | [] => [[]]
  | c :: cs =>
    let r := splitAll p cs
    if p c then [] :: r
    else
      match r with
      | [] => [[c]]
      | s :: ss => (c :: s) :: ss

/-- Split at maximal runs of delimiter characters, each run acting as one separator
(Python `re.split(r'[.!?]+', s)` keeps boundary empties but collapses runs). -/
def splitPlus (p : Char → Bool) : List Char → List (List Char)
  | [] => [[]]
  | c :: cs =>
    let r := splitPlus p cs
    if p c then
      match cs with
      | [] => [] :: r
      | c2 :: _ => if p c2 then r else [] :: r
    else
      match r with
      | [] => [[c]]
      | s :: ss => (c :: s) :: ss

theorem dropWhileLenLe (p : Char → Bool) : ∀ l : List Char, (l.dropWhile p).length ≤ l.length := by
  intro l
  induction l with
  | nil => simp [List.dropWhile]
  | cons c cs ih =>
    simp only [List.dropWhile]
    cases p c
    · simp
    · simp only [List.length_cons]; omega

/-- The maximal non-delimiter runs of a char list
(the semantics of Python's no-argument `str.split()`). -/
def splitRuns (p : Char → Bool) : List Char → List (List Char)
  | [] => []
  | c :: cs =>
    if p c then splitRuns p cs
    else (c :: cs.takeWhile (fun x => !p x)) :: splitRuns p (cs.dropWhile (fun x => !p x))
termination_by l => l.length
decreasing_by
  · simp only [List.length_cons]; omega
  · have h := dropWhileLenLe (fun x => !p x) cs
    simp only [List.length_cons]; omega

/-- Python's no-argument `str.split()`. -/
def pythonSplit (l : List Char) : List (List Char) := splitRuns isPyWhitespace l

/-! ## Timeliness classification (`app/services/insights_service.py`) -/

/-- A Python `datetime`: wall-clock seconds (since an arbitrary epoch) plus an optional
UTC offset in seconds; `tzOffset = none` models a naive datetime. -/
structure PyDateTime where
  wall : ℤ
  tzOffset : Option ℤ
deriving DecidableEq

/-- `dt.astimezone(pytz.UTC)` for an aware datetime (naive values are localized first
at every call site of the source). -/
def PyDateTime.astimezoneUTC (t : PyDateTime) : PyDateTime :=
  ⟨t.wall - t.tzOffset.getD 0, some 0⟩

/-- The `InsightsService` instance attributes set by `InsightsService.__init__`. -/
structure InsightsService where
  last_minute_threshold_hours : ℤ
  major_contribution_threshold : ℚ
deriving DecidableEq

/-- `InsightsService.__init__`: both thresholds are assigned fixed literals
(`1` hour, `50` percent); no configuration object is consulted. -/
def mkInsightsService : InsightsService :=
  { last_minute_threshold_hours := 1, major_contribution_threshold := 50 }

/-- The submission fields read by `evaluate_submission_timeliness`:
`created_at` and, when an analysis result with document metadata exists,
`analysis_result.document_metadata['last_modified_date']`. -/
structure Submission where
  created_at : PyDateTime
  last_modified_date : Option String
deriving DecidableEq

/-- The deadline fields read by `evaluate_submission_timeliness`. -/
structure Deadline where
  deadline_datetime : PyDateTime
  timezone : Option String
deriving DecidableEq

inductive TimelinessClass
  | on_time | late | last_minute_rush | no_deadline
deriving DecidableEq

/-- The `details` dictionary of a successful evaluation.  The source stores the two
timestamps as `isoformat()` strings; they are kept here as the datetimes themselves. -/
structure TimelinessDetails where
  submission_time : PyDateTime
  deadline_time : PyDateTime
  time_difference_minutes : ℤ
  is_late : Bool
  is_last_minute : Bool
deriving DecidableEq

structure TimelinessResult where
  classification : TimelinessClass
  message : String
  details : Option TimelinessDetails
deriving DecidableEq

def pluralS (n : ℕ) : String := if n = 1 then "" else "s"

/-- `InsightsService._format_time_difference` (all call sites pass a non-negative
timedelta, represented by its total seconds). -/
def format_time_difference (t : ℤ) : String :=
  let total_seconds := t.toNat
  if total_seconds < 60 then toString total_seconds ++ " seconds"
  else if total_seconds < 3600 then
    let minutes := total_seconds / 60
    toString minutes ++ " minute" ++ pluralS minutes
  else if total_seconds < 86400 then
    let hours := total_seconds / 3600
    let minutes := (total_seconds % 3600) / 60
    if minutes > 0 then
      toString hours ++ " hour" ++ pluralS hours ++ " and " ++
        toString minutes ++ " minute" ++ pluralS minutes
    else toString hours ++ " hour" ++ pluralS hours
  else
    let days := total_seconds / 86400
    let hours := (total_seconds % 86400) / 3600
    if hours > 0 then
      toString days ++ " day" ++ pluralS days ++ " and " ++
        toString hours ++ " hour" ++ pluralS hours
    else toString days ++ " day" ++ pluralS days

/-- Lines 31-39 of the source: prefer the metadata's `last_modified_date` (parsed with
`datetime.fromisoformat` after `replace('Z', '+00:00')`, which raises on a bad string),
falling back to `submission.created_at`.  `fromiso` is the library parser. -/
def effectiveSubmissionTime (fromiso : String → Option PyDateTime)
    (submission : Submission) : Except String PyDateTime :=
  match submission.last_modified_date with
  | some s =>
    if s = "" then Except.ok submission.created_at
    else
      match fromiso (s.replace "Z" "+00:00") with
      | some dt => Except.ok dt
      | none => Except.error ("Invalid isoformat string: " ++ s)
  | none => Except.ok submission.created_at

/-- Lines 44-56 of the source: localize a naive deadline using its declared timezone
(unknown zones fall back to UTC inside a nested `try`), leave aware deadlines alone. -/
def localizeDeadline (tzdb : String → Option ℤ) (dl : Deadline) : PyDateTime :=
  let dt := dl.deadline_datetime
  if dt.tzOffset = none then
    match dl.timezone with
    | some tz =>
      if tz ≠ "" ∧ tz ≠ "UTC" then
        match tzdb tz with
        | some off => ⟨dt.wall, some off⟩
        | none => ⟨dt.wall, some 0⟩
      else ⟨dt.wall, some 0⟩
    | none => ⟨dt.wall, some 0⟩
  else dt

/-- The body of the `try` block of `InsightsService.evaluate_submission_timeliness`
(lines 30-89); an `Except.error` is a raised exception. -/
def timelinessTry (svc : InsightsService) (tzdb : String → Option ℤ)
    (fromiso : String → Option PyDateTime) (submission : Submission)
    (dl : Deadline) : Except String TimelinessResult :=
  match effectiveSubmissionTime fromiso submission with
  | Except.error e => Except.error e
  | Except.ok st0 =>
    let st1 := if st0.tzOffset = none then (⟨st0.wall, some 0⟩ : PyDateTime) else st0
    let dt1 := localizeDeadline tzdb dl
    let stU := st1.astimezoneUTC
    let dtU := dt1.astimezoneUTC
    let time_difference : ℤ := stU.wall - dtU.wall
    let thresholdSec : ℤ := 3600 * svc.last_minute_threshold_hours
    let details : TimelinessDetails :=
      { submission_time := stU
        deadline_time := dtU
        time_difference_minutes := Int.tdiv time_difference 60
        is_late := decide (time_difference > 0)
        is_last_minute := decide (time_difference ≤ 0 ∧ |time_difference| ≤ thresholdSec) }
    if time_difference ≤ 0 then
      let time_before := |time_difference|
      if time_before ≤ thresholdSec then
        Except.ok ⟨TimelinessClass.last_minute_rush,
          "Last-minute submission (submitted " ++ format_time_difference time_before ++
            " before deadline)", some details⟩
      else
        Except.ok ⟨TimelinessClass.on_time,
          "On-time submission (submitted " ++ format_time_difference time_before ++
            " before deadline)", some details⟩
    else
      Except.ok ⟨TimelinessClass.late,
        "Late submission (submitted " ++ format_time_difference time_difference ++
          " after deadline)", some details⟩

/-- `InsightsService.evaluate_submission_timeliness`: no deadline yields `no_deadline`;
any exception inside the `try` block is caught and also yields `no_deadline` with
`details = None`. -/
def evaluate_submission_timeliness (svc : InsightsService) (tzdb : String → Option ℤ)
    (fromiso : String → Option PyDateTime) (submission : Submission)
    (deadline : Option Deadline) : TimelinessResult :=
  match deadline with
  | none =>
    ⟨TimelinessClass.no_deadline, "No deadline set for this submission", none⟩
  | some dl =>
    match timelinessTry svc tzdb fromiso submission dl with
    | Except.ok r => r
    | Except.error e =>
      ⟨TimelinessClass.no_deadline, "Error evaluating timeliness: " ++ e, none⟩

/-! ### Specification-side timeliness functions (from the spec's words, for refinement) -/

/-- Spec: `delta > 0 → late`; `delta ≤ 0` and `|delta| ≤ threshold → last_minute_rush`;
`delta ≤ 0` and `|delta| > threshold → on_time`. -/
def specClassify (thresholdSeconds delta : ℤ) : TimelinessClass :=
  if delta > 0 then TimelinessClass.late
  else if |delta| ≤ thresholdSeconds then TimelinessClass.last_minute_rush
  else TimelinessClass.on_time

/-- Spec: the effective submission time localized to UTC (a naive value is UTC). -/
def specSubmissionUTC (t : PyDateTime) : ℤ := t.wall - t.tzOffset.getD 0

/-- Spec: the deadline localized to UTC using its declared timezone, defaulting to UTC
when the zone is unset or unresolvable. -/
def specDeadlineUTC (tzdb : String → Option ℤ) (dl : Deadline) : ℤ :=
  match dl.deadline_datetime.tzOffset with
  | some off => dl.deadline_datetime.wall - off
  | none =>
    let off : ℤ :=
      match dl.timezone with
      | some tz => if tz = "" then 0 else (tzdb tz).getD 0
      | none => 0
    dl.deadline_datetime.wall - off

/-- Spec: `delta = submission_time_utc - due_at_utc` in seconds. -/
def specDelta (tzdb : String → Option ℤ) (t : PyDateTime) (dl : Deadline) : ℤ :=
  specSubmissionUTC t - specDeadlineUTC tzdb dl

/-! ## Document snapshots (`MetadataService.create_analysis_snapshot`) -/

/-- A row of the `document_snapshots` table (`app/models/analysis.py`):
`major_changes` defaults to `False`, `change_percentage` to `NULL`. -/
structure DocumentSnapshot where
  file_id : String
  submission_id : String
  word_count : ℕ
  file_hash : String
  change_percentage : Option ℚ
  major_changes : Bool
deriving DecidableEq

/-- `file_id = f"{submission.original_filename}_{submission.file_hash[:8]}"`. -/
def makeFileId (original_filename file_hash : String) : String :=
  original_filename ++ "_" ++ file_hash.take 8

/-- The `DocumentSnapshot.query.filter_by(file_id=...).order_by(created_at.desc()).first()`
query: the log is kept in insertion order (= `created_at` order), so the latest prior
snapshot with the given `file_id` is the last matching element. -/
def latestSnapshot (log : List DocumentSnapshot) (fid : String) : Option DocumentSnapshot :=
  (log.filter (fun s => s.file_id = fid)).getLast?

/-- `MetadataService.create_analysis_snapshot` (lines 268-305): builds the snapshot that
the pass appends.  With a predecessor of positive word count it stores the rounded
percentage change and flags `major_changes` at `abs ≥ 50`; with a predecessor of zero
word count (and with no predecessor) both fields keep their column defaults. -/
def create_analysis_snapshot (log : List DocumentSnapshot)
    (submission_id original_filename file_hash : String)
    (word_count : ℕ) : DocumentSnapshot :=
  let file_id := makeFileId original_filename file_hash
  let previous := latestSnapshot log file_id
  let base : DocumentSnapshot :=
    { file_id := file_id, submission_id := submission_id, word_count := word_count
      file_hash := file_hash, change_percentage := none, major_changes := false }
  match previous with
  | none => base
  | some prev =>
    if prev.word_count > 0 then
      let change : ℚ := (((word_count : ℚ) - (prev.word_count : ℚ)) / (prev.word_count : ℚ)) * 100
      { base with
          change_percentage := some (round2 change)
          major_changes := decide (|change| ≥ 50) }
    else base

/-- Replay of successive analysis passes over the same document identity: each pass
appends the snapshot built by `create_analysis_snapshot` against the current log. -/
def snapshotReplayGo (submission_id original_filename file_hash : String) :
    List DocumentSnapshot → List ℕ → List DocumentSnapshot
  | log, [] => log
  | log, w :: ws =>
    snapshotReplayGo submission_id original_filename file_hash
      (log ++ [create_analysis_snapshot log submission_id original_filename file_hash w])
      ws

def snapshotReplay (submission_id original_filename file_hash : String)
    (wordCounts : List ℕ) : List DocumentSnapshot :=
  snapshotReplayGo submission_id original_filename file_hash [] wordCounts

/-! ### Specification-side snapshot functions -/

/-- Spec: growth of each snapshot strictly against its immediate predecessor's word
count; no predecessor (or a zero predecessor, per the stored behaviour) means no
comparison. -/
def growthSpec : Option ℕ → List ℕ → List (Option ℚ)
  | _, [] => []
  | none, w :: ws => none :: growthSpec (some w) ws
  | some p, w :: ws =>
    (if p > 0
      then some (round2 ((((w : ℚ) - (p : ℚ)) / (p : ℚ)) * 100))
      else none) :: growthSpec (some w) ws

/-- Spec: a major change is an absolute percentage change meeting a configurable
threshold. -/
def isMajorSpec (threshold pct : ℚ) : Bool := decide (|pct| ≥ threshold)

/-! ## Content statistics (`MetadataService.compute_content_statistics`) -/

structure ContentStats where
  word_count : ℕ
  character_count : ℕ
  character_count_no_spaces : ℕ
  sentence_count : ℕ
  paragraph_count : ℕ
  estimated_pages : ℕ
  page_count : ℕ
  average_words_per_sentence : ℚ
  average_sentence_length : ℚ
deriving DecidableEq

/-- The all-zero statistics returned for empty or absent text. -/
def zeroStats : ContentStats :=
  { word_count := 0, character_count := 0, character_count_no_spaces := 0
    sentence_count := 0, paragraph_count := 0, estimated_pages := 0, page_count := 0
    average_words_per_sentence := 0, average_sentence_length := 0 }

/-- `[word.strip() for word in text.split() if word.strip()]`. -/
def codeWords (l : List Char) : List (List Char) :=
  ((pythonSplit l).map stripChars).filter (fun w => w ≠ [])

/-- `[s.strip() for s in re.split(r'[.!?]+', text) if s.strip()]`. -/
def codeSentences (l : List Char) : List (List Char) :=
  ((splitPlus isSentenceEnd l).map stripChars).filter (fun s => s ≠ [])

/-- `[p.strip() for p in text.split('\n') if p.strip()]`. -/
def codeParagraphs (l : List Char) : List (List Char) :=
  ((splitAll (fun c => c = '\n') l).map stripChars).filter (fun s => s ≠ [])

/-- `MetadataService.compute_content_statistics` (lines 208-256).  `none` models a
`None` argument; `if not text:` also catches the empty string. -/
def compute_content_statistics (text : Option String) : ContentStats :=
  match text with
  | none => zeroStats
  | some t =>
    if t = "" then zeroStats
    else
      let l := t.data
      let character_count := l.length
      let character_count_no_spaces := (l.filter (fun c => c ≠ ' ')).length
      let word_count := (codeWords l).length
      let sentence_count := (codeSentences l).length
      let paragraph_count := (codeParagraphs l).length
      let estimated_pages := (max 1 (pyRound ((word_count : ℚ) / 250))).toNat
      let average_words_per_sentence := round2 ((word_count : ℚ) / (max sentence_count 1 : ℕ))
      let average_sentence_length := round2 ((character_count : ℚ) / (max sentence_count 1 : ℕ))
      { word_count := word_count
        character_count := character_count
        character_count_no_spaces := character_count_no_spaces
        sentence_count := sentence_count
        paragraph_count := paragraph_count
        estimated_pages := estimated_pages
        page_count := estimated_pages
        average_words_per_sentence := average_words_per_sentence
        average_sentence_length := average_sentence_length }

/-! ### Specification-side content statistics -/

/-- Spec: word count = number of whitespace-delimited non-empty tokens. -/
def specWordCount (l : List Char) : ℕ :=
  ((splitAll isPyWhitespace l).filter (fun s => s ≠ [])).length

/-- Spec: sentence count = number of non-empty segments (after trimming) of a split on
sentence-terminal punctuation. -/
def specSentenceCount (l : List Char) : ℕ :=
  (((splitAll isSentenceEnd l).map stripChars).filter (fun s => s ≠ [])).length

/-- Spec: paragraph count = number of non-empty segments (after trimming) of a split on
line breaks. -/
def specParagraphCount (l : List Char) : ℕ :=
  (((splitAll (fun c => c = '\n') l).map stripChars).filter (fun s => s ≠ [])).length

/-! ## Metadata extraction (`MetadataService.extract_docx_metadata`, lines 34-175) -/

structure Contributor where
  name : String
  role : String
  date : Option String
deriving DecidableEq

/-- The metadata dictionary built by `extract_docx_metadata` (defaults of lines 36-47;
`parsing_error` is the key added at line 131 when the main `try` block failed). -/
structure DocMetadata where
  author : String
  creation_date : Option String
  last_modified_date : Option String
  last_editor : String
  file_size : ℕ
  word_count : ℕ
  revision_count : ℕ
  editing_time_minutes : ℕ
  application : String
  contributors : List Contributor
  parsing_error : Option String
deriving DecidableEq

/-- What `python-docx` produced for `doc.core_properties` (datetimes are carried as
their `isoformat()` strings, which is all the source keeps of them). -/
structure CoreProps where
  author : Option String
  created : Option String
  modified : Option String
  last_modified_by : Option String
  revision : Option String
deriving DecidableEq

/-- Fields read from `docProps/app.xml` (tag text per tag name, when the file was
present and parseable; a missing/broken file is `none` and only logs a warning). -/
structure AppXmlProps where
  application : Option String
  words : Option String
  totalTime : Option String
deriving DecidableEq

/-- Fields read from `docProps/core.xml`: first non-empty text per tag
(the loop at lines 110-122 skips empty texts and never overwrites a set field). -/
structure CoreXmlProps where
  created : Option String
  modified : Option String
  lastModifiedBy : Option String
  creator : Option String
deriving DecidableEq

instance {α β : Type} [DecidableEq α] [DecidableEq β] : DecidableEq (Except α β) := fun x y =>
  match x, y with
  | Except.error a, Except.error b =>
    if h : a = b then isTrue (by rw [h])
    else isFalse (by intro hc; injection hc; contradiction)
  | Except.ok a, Except.ok b =>
    if h : a = b then isTrue (by rw [h])
    else isFalse (by intro hc; injection hc; contradiction)
  | Except.error _, Except.ok _ => isFalse (by intro hc; exact Except.noConfusion hc)
  | Except.ok _, Except.error _ => isFalse (by intro hc; exact Except.noConfusion hc)

/-- Everything the external libraries hand to `extract_docx_metadata` for one file:
`size` is `os.path.getsize` (error = raised `OSError`), `doc` is `Document(file_path)`
(error = corrupt/unreadable document), the XML parts are `none` when absent or broken,
`ctime`/`mtime` are the filesystem-timestamp fallbacks (`none` = raised). -/
structure DocxRaw where
  size : Except String ℕ
  doc : Except String CoreProps
  appXml : Option AppXmlProps
  coreXml : Option CoreXmlProps
  ctime : Option String
  mtime : Option String
deriving DecidableEq

def pythonDocxName : String := "python-docx"

/-- The metadata accumulated by the main `try` block (lines 51-131): an exception from
`getsize` or `Document` stops the block at that point, sets `parsing_error`, and keeps
whatever was already filled in. -/
def extractTryBlock (raw : DocxRaw) : DocMetadata :=
  let m0 : DocMetadata :=
    { author := "Unavailable", creation_date := none, last_modified_date := none
      last_editor := "Unavailable", file_size := 0, word_count := 0, revision_count := 0
      editing_time_minutes := 0, application := "Unknown", contributors := []
      parsing_error := none }
  match raw.size with
  | Except.error e => { m0 with parsing_error := some e }
  | Except.ok sz =>
    let mA := { m0 with file_size := sz }
    match raw.doc with
    | Except.error e => { mA with parsing_error := some e }
    | Except.ok props =>
      let mB := match truthy props.author with
        | some a => { mA with author := a }
        | none => mA
      let mC := match props.created with
        | some c => { mB with creation_date := some c }
        | none => mB
      let mD := match props.modified with
        | some c => { mC with last_modified_date := some c }
        | none => mC
      let mE := match truthy props.last_modified_by with
        | some le => { mD with last_editor := le }
        | none => mD
      let mF := match truthy props.revision with
        | some r => { mE with revision_count := (pyInt r).getD 0 }
        | none => mE
      let mG := match raw.appXml with
        | none => mF
        | some ax =>
          let g1 := match ax.application with
            | some app => { mF with application := app }
            | none => mF
          let g2 := match ax.words with
            | some w =>
              match pyInt w with
              | some n => { g1 with word_count := n }
              | none => g1
            | none => g1
          match ax.totalTime with
          | some t =>
            match pyInt t with
            | some n => { g2 with editing_time_minutes := n }
            | none => g2
          | none => g2
      match raw.coreXml with
      | none => mG
      | some cx =>
        let h1 := match cx.created with
          | some c => if pyFalsy mG.creation_date then { mG with creation_date := some c } else mG
          | none => mG
        let h2 := match cx.modified with
          | some c => if pyFalsy h1.last_modified_date then { h1 with last_modified_date := some c } else h1
          | none => h1
        let h3 := match cx.lastModifiedBy with
          | some c => if h2.last_editor = "Unavailable" then { h2 with last_editor := c } else h2
          | none => h2
        match cx.creator with
        | some c => if h3.author = "Unavailable" then { h3 with author := c } else h3
        | none => h3

/-- `MetadataService.extract_docx_metadata`: the `try` block followed by the
`[ALWAYS RUN] Cleanup and Fallback Logic` (lines 133-175).  Note the order: the
editor-defaults-to-author fallback (line 136) runs *before* the `python-docx`
cleanup (lines 140-143).  The function always returns `(metadata, None)`. -/
def extract_docx_metadata (raw : DocxRaw) : DocMetadata × Option String :=
  let m1 := extractTryBlock raw
  -- Fallback: if last_editor is still Unavailable, use author if available
  let m2 :=
    if m1.last_editor = "Unavailable" ∧ m1.author ≠ "Unavailable" then
      { m1 with last_editor := m1.author }
    else m1
  -- Cleanup 'python-docx' default value
  let m3 :=
    if m2.last_editor ≠ "" ∧ strHasSub pythonDocxName m2.last_editor then
      { m2 with last_editor := "Unavailable" }
    else m2
  let m4 :=
    if m3.author ≠ "" ∧ strHasSub pythonDocxName m3.author then
      { m3 with author := "Unavailable" }
    else m3
  -- Populate contributors
  let m5 :=
    if m4.author ≠ "Unavailable" then
      { m4 with contributors :=
          m4.contributors ++ [⟨m4.author, "Author", m4.creation_date⟩] }
    else m4
  let m6 :=
    if m5.last_editor ≠ "Unavailable" ∧
        (m5.contributors = [] ∨ (m5.contributors.head?.map Contributor.name) ≠ some m5.last_editor) then
      { m5 with contributors :=
          m5.contributors ++ [⟨m5.last_editor, "Editor", m5.last_modified_date⟩] }
    else m5
  -- [Fallback] Filesystem timestamps if document metadata is missing
  let m7 :=
    if pyFalsy m6.creation_date then
      match raw.ctime with
      | some c => { m6 with creation_date := some c }
      | none => m6
    else m6
  let m8 :=
    if pyFalsy m7.last_modified_date then
      match raw.mtime with
      | some c => { m7 with last_modified_date := some c }
      | none => m7
    else m7
  (m8, none)

/-- `MetadataService.extract_document_text` (lines 178-206): paragraphs and table-cell
texts from the document, or a raised exception. -/
def extract_document_text (raw : Except String (List String × List String)) :
    Option String × Option String :=
  match raw with
  | Except.error e => (none, some ("Text extraction error: " ++ e))
  | Except.ok (paras, cells) =>
    let paragraphs := (paras.map String.trim).filter (fun s => s ≠ "")
    let table_text := (cells.map String.trim).filter (fun s => s ≠ "")
    let full_text := String.intercalate "\n" paragraphs
    let full_text :=
      if table_text ≠ [] then full_text ++ "\n" ++ String.intercalate "\n" table_text
      else full_text
    (some full_text, none)

/-- `MetadataService.validate_document_completeness` (lines 258-266): all checks are
disabled; always `(True, [])`. -/
def validate_document_completeness (_content_stats : ContentStats) (_text : String) :
    Bool × List String :=
  (true, [])

/-! ## Orchestration (`app/api/metadata.py`) -/

inductive SubmissionStatus
  | pending | processing | completed | failed | warning
deriving DecidableEq

/-- Which branch of `analyze_submission` produced the HTTP response. -/
inductive AnalyzeBranch
  | notPending | metadataFailed | textFailed | completedOk
deriving DecidableEq

/-- The `analysis_results` row written by `analyze_submission`
(`nlp_results` stands for the auto-triggered NLP enrichment, whose failures are
caught locally and never affect status or snapshots). -/
structure AnalysisResultRec where
  document_metadata : DocMetadata
  content_statistics : ContentStats
  document_text : String
  is_complete_document : Bool
  validation_warnings : List String
  nlp_results : Option String
deriving DecidableEq

/-- The per-submission persistent state touched by the pipeline: the submission row's
status/error fields plus its `document_snapshots` rows (insertion order) and its
`analysis_results` row. -/
structure PipelineState where
  status : SubmissionStatus
  submission_id : String
  original_filename : String
  file_hash : String
  snapshots : List DocumentSnapshot
  analysis_result : Option AnalysisResultRec
  error_message : Option String
deriving DecidableEq

/-- The external-world inputs consumed by one `analyze_submission` call. -/
structure AnalyzeInput where
  docxRaw : DocxRaw
  textRaw : Except String (List String × List String)
  nlpRaw : Option String
deriving DecidableEq

/-- `analyze_submission` (lines 41-216): rejects any submission that is not `PENDING`;
otherwise extracts metadata (whose error, always `None`, would mark the run `FAILED`),
extracts text (whose error marks the run `FAILED`), computes statistics, validates,
appends exactly one snapshot, stores the analysis result and finishes
`WARNING`/`COMPLETED` according to the (always empty) warnings. -/
def analyze_submission (inp : AnalyzeInput) (s : PipelineState) :
    PipelineState × AnalyzeBranch :=
  if s.status ≠ SubmissionStatus.pending then (s, AnalyzeBranch.notPending)
  else
    let s1 := { s with status := SubmissionStatus.processing }
    let mdPair := extract_docx_metadata inp.docxRaw
    match mdPair.2 with
    | some e =>
      ({ s1 with status := SubmissionStatus.failed, error_message := some e },
        AnalyzeBranch.metadataFailed)
    | none =>
      let textPair := extract_document_text inp.textRaw
      match textPair.2 with
      | some e =>
        ({ s1 with status := SubmissionStatus.failed, error_message := some e },
          AnalyzeBranch.textFailed)
      | none =>
        let text := textPair.1.getD ""
        let content_stats := compute_content_statistics (some text)
        let vw := validate_document_completeness content_stats text
        let snapshot := create_analysis_snapshot s1.snapshots s1.submission_id
          s1.original_filename s1.file_hash content_stats.word_count
        let s2 := { s1 with snapshots := s1.snapshots ++ [snapshot] }
        let ar : AnalysisResultRec :=
          { document_metadata := mdPair.1, content_statistics := content_stats
            document_text := text, is_complete_document := vw.1
            validation_warnings := vw.2, nlp_results := inp.nlpRaw }
        ({ s2 with
            analysis_result := some ar
            status := if vw.2 = [] then SubmissionStatus.completed else SubmissionStatus.warning },
          AnalyzeBranch.completedOk)

/-- `reprocess_submission` (lines 268-298): reset the submission to `PENDING`, clear the
error message, delete the existing `AnalysisResult`, then run `analyze_submission`.
The snapshot rows are not touched by the reset. -/
def reprocess_submission (inp : AnalyzeInput) (s : PipelineState) :
    PipelineState × AnalyzeBranch :=
  let s1 := { s with
      status := SubmissionStatus.pending
      error_message := none
      analysis_result := none }
  analyze_submission inp s1

/-- N successive reprocessing runs. -/
def reprocessRuns (inps : List AnalyzeInput) (s : PipelineState) : PipelineState :=
  inps.foldl (fun st i => (reprocess_submission i st).1) s

/-! ## Lemmas about snapshots -/

theorem filterFidEqSelf {log : List DocumentSnapshot} {fid : String}
    (h : ∀ s ∈ log, s.file_id = fid) :
    log.filter (fun s => s.file_id = fid) = log := by
  induction log with
  | nil => rfl
  | cons a as ih =>
    rw [List.filter_cons]
    have ha : a.file_id = fid := h a (List.mem_cons_self a as)
    rw [if_pos (by simp [ha])]
    rw [ih (fun s hs => h s (List.mem_cons_of_mem a hs))]

theorem latestSnapshotOfAll {log : List DocumentSnapshot} {fid : String}
    (h : ∀ s ∈ log, s.file_id = fid) :
    latestSnapshot log fid = log.getLast? := by
  unfold latestSnapshot
  rw [filterFidEqSelf h]

theorem createSnapshotWordCount (log : List DocumentSnapshot) (sid fn fh : String) (wc : ℕ) :
    (create_analysis_snapshot log sid fn fh wc).word_count = wc := by
  cases h : latestSnapshot log (makeFileId fn fh) with
  | none => simp [create_analysis_snapshot, h]
  | some prev =>
    simp only [create_analysis_snapshot, h]
    split
    · rfl
    · rfl

theorem createSnapshotFileId (log : List DocumentSnapshot) (sid fn fh : String) (wc : ℕ) :
    (create_analysis_snapshot log sid fn fh wc).file_id = makeFileId fn fh := by
  cases h : latestSnapshot log (makeFileId fn fh) with
  | none => simp [create_analysis_snapshot, h]
  | some prev =>
    simp only [create_analysis_snapshot, h]
    split
    · rfl
    · rfl

theorem createSnapshotChange (log : List DocumentSnapshot) (sid fn fh : String) (wc : ℕ)
    (h : ∀ s ∈ log, s.file_id = makeFileId fn fh) :
    (create_analysis_snapshot log sid fn fh wc).change_percentage =
      match (log.getLast?).map DocumentSnapshot.word_count with
      | none => none
      | some p =>
        if p > 0 then some (round2 ((((wc : ℚ) - (p : ℚ)) / (p : ℚ)) * 100)) else none := by
  have hl := latestSnapshotOfAll h
  cases hlast : log.getLast? with
  | none =>
    rw [hlast] at hl
    simp [create_analysis_snapshot, hl]
  | some prev =>
    rw [hlast] at hl
    simp only [create_analysis_snapshot, hl, Option.map_some']
    split
    · rfl
    · rfl

theorem createSnapshotMajor (log : List DocumentSnapshot) (sid fn fh : String) (wc : ℕ)
    (prev : DocumentSnapshot)
    (hp : latestSnapshot log (makeFileId fn fh) = some prev)
    (hw : prev.word_count > 0) :
    (create_analysis_snapshot log sid fn fh wc).major_changes =
      isMajorSpec 50 ((((wc : ℚ) - (prev.word_count : ℚ)) / (prev.word_count : ℚ)) * 100) := by
  simp only [create_analysis_snapshot, hp]
  rw [if_pos hw]
  rfl

theorem snapshotReplayGoSpec (sid fn fh : String) :
    ∀ (ws : List ℕ) (log : List DocumentSnapshot),
      (∀ s ∈ log, s.file_id = makeFileId fn fh) →
      (snapshotReplayGo sid fn fh log ws).map DocumentSnapshot.change_percentage =
        log.map DocumentSnapshot.change_percentage ++
          growthSpec ((log.getLast?).map DocumentSnapshot.word_count) ws := by
  intro ws
  induction ws with
  | nil =>
    intro log h
    simp [snapshotReplayGo, growthSpec]
  | cons w ws ih =>
    intro log h
    rw [snapshotReplayGo]
    have hinv : ∀ s ∈ log ++ [create_analysis_snapshot log sid fn fh w],
        s.file_id = makeFileId fn fh := by
      intro s hs
      rcases List.mem_append.mp hs with hs | hs
      · exact h s hs
      · rcases List.mem_singleton.mp hs with rfl
        exact createSnapshotFileId log sid fn fh w
    rw [ih _ hinv]
    rw [List.map_append, List.getLast?_concat]
    rw [List.append_assoc]
    congr 1
    simp only [List.map_cons, List.map_nil, List.singleton_append, Option.map_some']
    rw [createSnapshotWordCount]
    rw [createSnapshotChange _ _ _ _ _ h]
    cases hlast : log.getLast? with
    | none => simp [growthSpec]
    | some prev => simp [growthSpec]

/-! ## Claims C2 and C3 -/

/-- Concrete predecessor snapshots used in counterexamples and witnesses. -/
def snapPrevZero : DocumentSnapshot :=
  { file_id := "doc.docx_abcd1234", submission_id := "s0", word_count := 0
    file_hash := "abcd1234ef", change_percentage := none, major_changes := false }

def snapPrevThree : DocumentSnapshot :=
  { file_id := "doc.docx_abcd1234", submission_id := "s0", word_count := 3
    file_hash := "abcd1234ef", change_percentage := none, major_changes := false }

def snapPrevHundred : DocumentSnapshot :=
  { file_id := "doc.docx_abcd1234", submission_id := "s0", word_count := 100
    file_hash := "abcd1234ef", change_percentage := none, major_changes := false }

/-- C2 (counterexample): the claim fails on the stored snapshot.  With a predecessor of
word count 0 and new word count 5, `create_analysis_snapshot` leaves
`change_percentage` as `NULL` (the claim demands 100); and with predecessor 3 and new
count 4 it stores the value rounded to two decimals, 33.33, which differs from the
claimed exact `(4 - 3) / 3 * 100`. -/
theorem c2_snapshot_change_counterexample :
    (create_analysis_snapshot [snapPrevZero] "s1" "doc.docx" "abcd1234ef" 5).change_percentage
        = none
    ∧ (create_analysis_snapshot [snapPrevThree] "s1" "doc.docx" "abcd1234ef" 4).change_percentage
        = some (3333 / 100)
    ∧ (3333 / 100 : ℚ) ≠ (((4 : ℚ) - 3) / 3) * 100 := by
  refine ⟨by decide, ?_, by norm_num⟩
  rw [createSnapshotChange _ _ _ _ _ (by decide)]
  show (if (3 : ℕ) > 0 then some (round2 ((((4 : ℚ) - 3) / 3) * 100)) else none) =
    some (3333 / 100)
  rw [if_pos (by norm_num)]
  norm_num [round2, pyRound]

/-- C2 (amended): when a predecessor with the same identity key exists and has positive
word count, the stored `change_percentage` is the percentage change rounded to two
decimals; when the predecessor's word count is 0, the field is left unset (`NULL`) —
the 100-or-0 convention of the spec lives only in
`InsightsService.compute_contribution_growth`, not in the stored snapshot. -/
theorem c2_snapshot_change_amended (log : List DocumentSnapshot) (sid fn fh : String)
    (wc : ℕ) (prev : DocumentSnapshot)
    (hall : ∀ s ∈ log, s.file_id = makeFileId fn fh)
    (hp : log.getLast? = some prev) :
    (prev.word_count > 0 →
      (create_analysis_snapshot log sid fn fh wc).change_percentage =
        some (round2 ((((wc : ℚ) - (prev.word_count : ℚ)) / (prev.word_count : ℚ)) * 100)))
    ∧ (prev.word_count = 0 →
      (create_analysis_snapshot log sid fn fh wc).change_percentage = none) := by
  constructor
  · intro hw
    rw [createSnapshotChange _ _ _ _ _ hall, hp]
    simp [hw]
  · intro hw
    rw [createSnapshotChange _ _ _ _ _ hall, hp]
    simp [hw]

theorem c2_snapshot_change_amended_witness :
    (∀ s ∈ [snapPrevThree], s.file_id = makeFileId "doc.docx" "abcd1234ef")
    ∧ [snapPrevThree].getLast? = some snapPrevThree
    ∧ snapPrevThree.word_count > 0
    ∧ (create_analysis_snapshot [snapPrevThree] "s1" "doc.docx" "abcd1234ef" 4).change_percentage =
        some (round2 ((((4 : ℚ) - (snapPrevThree.word_count : ℚ)) / (snapPrevThree.word_count : ℚ)) * 100)) := by
  refine ⟨by decide, by decide, by decide, ?_⟩
  exact (c2_snapshot_change_amended [snapPrevThree] "s1" "doc.docx" "abcd1234ef" 4
    snapPrevThree (by decide) (by decide)).1 (by decide)

/-- C3 (confirmed): every snapshot's growth percentage is computed strictly against the
immediately preceding snapshot with the same identity key (`growthSpec` walks the
word-count sequence pairwise); a snapshot with no predecessor keeps
`change_percentage = NULL`; the word-count sequence [100, 150, 90] yields
[null, +50.0, -40.0]; and a snapshot of a different identity key appended to the log
does not affect the comparison. -/
theorem c3_growth_against_immediate_predecessor :
    (∀ (sid fn fh : String) (ws : List ℕ),
      (snapshotReplay sid fn fh ws).map DocumentSnapshot.change_percentage =
        growthSpec none ws)
    ∧ ((snapshotReplay "s" "f" "hash1234" [100, 150, 90]).map
          DocumentSnapshot.change_percentage = [none, some 50, some (-40)])
    ∧ (∀ (log : List DocumentSnapshot) (other : DocumentSnapshot) (sid fn fh : String)
          (wc : ℕ), other.file_id ≠ makeFileId fn fh →
        create_analysis_snapshot (log ++ [other]) sid fn fh wc =
          create_analysis_snapshot log sid fn fh wc) := by
  refine ⟨?_, ?_, ?_⟩
  · intro sid fn fh ws
    have := snapshotReplayGoSpec sid fn fh ws [] (by intro s hs; cases hs)
    simpa [snapshotReplay] using this
  · have h := snapshotReplayGoSpec "s" "f" "hash1234" [100, 150, 90] []
      (by intro s hs; cases hs)
    rw [snapshotReplay, h]
    norm_num [growthSpec, round2, pyRound]
  · intro log other sid fn fh wc hne
    have hfilter : (log ++ [other]).filter (fun s => s.file_id = makeFileId fn fh) =
        log.filter (fun s => s.file_id = makeFileId fn fh) := by
      rw [List.filter_append]
      have : [other].filter (fun s => s.file_id = makeFileId fn fh) = [] := by
        simp [List.filter_cons, hne]
      rw [this, List.append_nil]
    simp only [create_analysis_snapshot, latestSnapshot]
    rw [hfilter]

theorem c3_growth_witness :
    snapPrevZero.file_id ≠ makeFileId "other.docx" "ffff0000" ∧
    create_analysis_snapshot [snapPrevZero] "s1" "other.docx" "ffff0000" 7 =
      create_analysis_snapshot [] "s1" "other.docx" "ffff0000" 7 := by
  refine ⟨by decide, ?_⟩
  exact c3_growth_against_immediate_predecessor.2.2 [] snapPrevZero "s1" "other.docx"
    "ffff0000" 7 (by decide)

/-! ## Lemmas about the orchestrator -/

/-- Shared helper: `extract_docx_metadata` unconditionally returns a `None` error
(line 175 of the source runs after every path of the `try`/`except`). -/
theorem extractMetadataNoError (raw : DocxRaw) : (extract_docx_metadata raw).2 = none := rfl

theorem analyzeSnapshotsPrefix (inp : AnalyzeInput) (s : PipelineState) :
    s.snapshots <+: (analyze_submission inp s).1.snapshots := by
  obtain ⟨draw, traw, nraw⟩ := inp
  obtain ⟨st, sid, fn, fh, sn, ar, em⟩ := s
  cases st with
  | pending =>
    rcases traw with e | ⟨ps, cs⟩
    · exact List.prefix_rfl
    · exact List.prefix_append _ _
  | processing => exact List.prefix_rfl
  | completed => exact List.prefix_rfl
  | failed => exact List.prefix_rfl
  | warning => exact List.prefix_rfl

theorem reprocessSnapshotsPrefix (inp : AnalyzeInput) (s : PipelineState) :
    s.snapshots <+: (reprocess_submission inp s).1.snapshots :=
  analyzeSnapshotsPrefix inp
    { s with status := SubmissionStatus.pending, error_message := none, analysis_result := none }

theorem reprocessAppendsOne (inp : AnalyzeInput) (s : PipelineState)
    (h : ∃ d, inp.textRaw = Except.ok d) :
    ∃ snap, (reprocess_submission inp s).1.snapshots = s.snapshots ++ [snap] := by
  obtain ⟨⟨ps, cs⟩, hd⟩ := h
  obtain ⟨draw, traw, nraw⟩ := inp
  obtain ⟨st, sid, fn, fh, sn, ar, em⟩ := s
  cases hd
  exact ⟨_, rfl⟩

theorem reprocessRunsLength (inps : List AnalyzeInput) :
    ∀ s : PipelineState, (∀ i ∈ inps, ∃ d, i.textRaw = Except.ok d) →
      (reprocessRuns inps s).snapshots.length = s.snapshots.length + inps.length := by
  induction inps with
  | nil => intro s _; simp [reprocessRuns]
  | cons i is ih =>
    intro s h
    have hstep : reprocessRuns (i :: is) s = reprocessRuns is (reprocess_submission i s).1 := rfl
    rw [hstep]
    rw [ih _ (fun j hj => h j (List.mem_cons_of_mem i hj))]
    obtain ⟨snap, hsnap⟩ := reprocessAppendsOne i s (h i (List.mem_cons_self i is))
    rw [hsnap]
    simp [List.length_append]
    omega

/-! ## Claims C4, C8, C9 -/

/-- A concrete extraction outcome used by witnesses. -/
def exDocxRaw : DocxRaw :=
  { size := Except.ok 2048
    doc := Except.ok
      { author := some "Alice", created := some "2024-01-01T08:00:00"
        modified := some "2024-01-01T22:05:00", last_modified_by := some "Bob"
        revision := some "3" }
    appXml := none, coreXml := none, ctime := none, mtime := none }

def exInput : AnalyzeInput :=
  { docxRaw := exDocxRaw
    textRaw := Except.ok (["Hello world.", "Second paragraph!"], [])
    nlpRaw := none }

def exFailingTextInput : AnalyzeInput :=
  { docxRaw := exDocxRaw
    textRaw := Except.error "Package not found"
    nlpRaw := none }

def exPendingState : PipelineState :=
  { status := SubmissionStatus.pending, submission_id := "sub-1"
    original_filename := "doc.docx", file_hash := "abcd1234ef"
    snapshots := [], analysis_result := none, error_message := none }

def exProcessingState : PipelineState :=
  { exPendingState with status := SubmissionStatus.processing }

/-- C4 (confirmed): the snapshot log only ever grows.  Any `analyze_submission` or
`reprocess_submission` call leaves the prior snapshots as a prefix (nothing is shrunk,
rewritten or reordered); a reprocessing run whose text extraction succeeds appends
exactly one snapshot; and N such runs grow the log by exactly N. -/
theorem c4_snapshot_log_append_only :
    (∀ (inp : AnalyzeInput) (s : PipelineState),
      s.snapshots <+: (analyze_submission inp s).1.snapshots)
    ∧ (∀ (inp : AnalyzeInput) (s : PipelineState),
      s.snapshots <+: (reprocess_submission inp s).1.snapshots)
    ∧ (∀ (inp : AnalyzeInput) (s : PipelineState), (∃ d, inp.textRaw = Except.ok d) →
      ∃ snap, (reprocess_submission inp s).1.snapshots = s.snapshots ++ [snap])
    ∧ (∀ (inps : List AnalyzeInput) (s : PipelineState),
      (∀ i ∈ inps, ∃ d, i.textRaw = Except.ok d) →
      (reprocessRuns inps s).snapshots.length = s.snapshots.length + inps.length) :=
  ⟨analyzeSnapshotsPrefix, reprocessSnapshotsPrefix, reprocessAppendsOne,
    fun inps s h => reprocessRunsLength inps s h⟩

theorem c4_snapshot_log_append_only_witness :
    (∀ i ∈ [exInput, exInput], ∃ d, i.textRaw = Except.ok d)
    ∧ (reprocessRuns [exInput, exInput] exPendingState).snapshots.length =
        exPendingState.snapshots.length + 2 := by
  have hok : ∀ i ∈ [exInput, exInput], ∃ d, i.textRaw = Except.ok d := by
    intro i hi
    rcases List.mem_cons.mp hi with rfl | hi
    · exact ⟨_, rfl⟩
    · rcases List.mem_singleton.mp hi with rfl
      exact ⟨_, rfl⟩
  exact ⟨hok, c4_snapshot_log_append_only.2.2.2 [exInput, exInput] exPendingState hok⟩

/-- C8 (confirmed): `analyze_submission` starts a run only from `PENDING`; any attempt
from another status is rejected with the submission state (status, results, snapshots,
error message) completely unchanged. -/
theorem c8_run_only_from_pending (inp : AnalyzeInput) (s : PipelineState)
    (h : s.status ≠ SubmissionStatus.pending) :
    analyze_submission inp s = (s, AnalyzeBranch.notPending) := by
  unfold analyze_submission
  rw [if_pos h]

theorem c8_run_only_from_pending_witness :
    exProcessingState.status ≠ SubmissionStatus.pending
    ∧ analyze_submission exInput exProcessingState = (exProcessingState, AnalyzeBranch.notPending) :=
  ⟨by decide, c8_run_only_from_pending exInput exProcessingState (by decide)⟩

/-- C9 (confirmed): `extract_docx_metadata` is total — every outcome of the underlying
library calls yields `(metadata, None)` — so the orchestrator's metadata-error `FAILED`
branch can never be taken, and a pending run can only end `FAILED` when text extraction
itself failed. -/
theorem c9_metadata_extraction_never_fatal :
    (∀ raw : DocxRaw, (extract_docx_metadata raw).2 = none)
    ∧ (∀ (inp : AnalyzeInput) (s : PipelineState),
        (analyze_submission inp s).2 ≠ AnalyzeBranch.metadataFailed)
    ∧ (∀ (inp : AnalyzeInput) (s : PipelineState),
        s.status = SubmissionStatus.pending →
        (analyze_submission inp s).1.status = SubmissionStatus.failed →
        ∃ e, extract_document_text inp.textRaw = (none, some e)) := by
  refine ⟨extractMetadataNoError, ?_, ?_⟩
  · intro inp s
    obtain ⟨draw, traw, nraw⟩ := inp
    obtain ⟨st, sid, fn, fh, sn, ar, em⟩ := s
    cases st with
    | pending =>
      rcases traw with e | ⟨ps, cs⟩
      · intro hc; cases hc
      · intro hc; cases hc
    | processing => intro hc; cases hc
    | completed => intro hc; cases hc
    | failed => intro hc; cases hc
    | warning => intro hc; cases hc
  · intro inp s hp hfail
    obtain ⟨draw, traw, nraw⟩ := inp
    obtain ⟨st, sid, fn, fh, sn, ar, em⟩ := s
    cases hp
    rcases traw with e | ⟨ps, cs⟩
    · exact ⟨"Text extraction error: " ++ e, rfl⟩
    · exact SubmissionStatus.noConfusion hfail

theorem c9_metadata_extraction_never_fatal_witness :
    (extract_docx_metadata exFailingTextInput.docxRaw).2 = none
    ∧ exPendingState.status = SubmissionStatus.pending
    ∧ (analyze_submission exFailingTextInput exPendingState).1.status = SubmissionStatus.failed
    ∧ ∃ e, extract_document_text exFailingTextInput.textRaw = (none, some e) := by
  refine ⟨c9_metadata_extraction_never_fatal.1 exFailingTextInput.docxRaw, rfl, rfl, ?_⟩
  exact c9_metadata_extraction_never_fatal.2.2 exFailingTextInput exPendingState rfl rfl

/-! ## Claim C5 -/

/-- The raw extraction outcome of a document whose structured `last_modified_by` is the
extraction tool's own name while the author is a real person. -/
def rawToolEditedDoc : DocxRaw :=
  { size := Except.ok 1000
    doc := Except.ok
      { author := some "Alice", created := none, modified := none
        last_modified_by := some "python-docx", revision := none }
    appXml := none, coreXml := none, ctime := none, mtime := none }

/-- C5 (counterexample): with author `Alice` and raw last-modified-by `python-docx`
(to be treated as unavailable per the claim), `extract_docx_metadata` returns
`last_editor = "Unavailable"`, not `author` — the claim's `last_editor = author` fails,
because the cleanup of the tool name runs *after* the editor-defaults-to-author
fallback. -/
theorem c5_editor_fallback_counterexample :
    (extract_docx_metadata rawToolEditedDoc).1.author = "Alice"
    ∧ (extract_docx_metadata rawToolEditedDoc).1.last_editor = "Unavailable"
    ∧ ("Unavailable" : String) ≠ "Alice" := by
  refine ⟨by decide, by decide, by decide⟩

/-- C5 (amended): editor defaults to author (never the reverse) only when the raw
last-modified-by value is genuinely absent; when the raw value is the tool name
`python-docx`, the cleanup (which runs after the fallback, lines 136-143) resets
`last_editor` to `Unavailable` instead of defaulting it to `author`. -/
theorem c5_editor_fallback_amended (n : ℕ) (a : String)
    (ha : a ≠ "") (had : strHasSub pythonDocxName a = false) (hau : a ≠ "Unavailable") :
    ((extract_docx_metadata
        ⟨Except.ok n, Except.ok ⟨some a, none, none, none, none⟩,
         none, none, none, none⟩).1.last_editor = a)
    ∧ ((extract_docx_metadata
        ⟨Except.ok n, Except.ok ⟨some a, none, none, some "python-docx", none⟩,
         none, none, none, none⟩).1.last_editor = "Unavailable") := by
  have htr : truthy (some a) = some a := by simp [truthy, ha]
  constructor
  · have h1 : extractTryBlock
        ⟨Except.ok n, Except.ok ⟨some a, none, none, none, none⟩,
         none, none, none, none⟩ =
        { author := a, creation_date := none, last_modified_date := none
          last_editor := "Unavailable", file_size := n, word_count := 0
          revision_count := 0, editing_time_minutes := 0, application := "Unknown"
          contributors := [], parsing_error := none } := by
      unfold extractTryBlock
      dsimp only
      rw [htr]
      rfl
    unfold extract_docx_metadata
    rw [h1]
    simp [hau, had, ha, pyFalsy]
  · have h1 : extractTryBlock
        ⟨Except.ok n, Except.ok ⟨some a, none, none, some "python-docx", none⟩,
         none, none, none, none⟩ =
        { author := a, creation_date := none, last_modified_date := none
          last_editor := "python-docx", file_size := n, word_count := 0
          revision_count := 0, editing_time_minutes := 0, application := "Unknown"
          contributors := [], parsing_error := none } := by
      unfold extractTryBlock
      dsimp only
      rw [htr]
      rfl
    unfold extract_docx_metadata
    rw [h1]
    have hpp : strHasSub pythonDocxName "python-docx" = true := by decide
    have hne : ("python-docx" : String) ≠ "Unavailable" := by decide
    simp [hau, had, ha, pyFalsy, hpp, hne]

theorem c5_editor_fallback_amended_witness :
    ("Alice" : String) ≠ ""
    ∧ strHasSub pythonDocxName "Alice" = false
    ∧ ("Alice" : String) ≠ "Unavailable"
    ∧ (extract_docx_metadata
        ⟨Except.ok 1000, Except.ok ⟨some "Alice", none, none, none, none⟩,
         none, none, none, none⟩).1.last_editor = "Alice" := by
  refine ⟨by decide, by decide, by decide, ?_⟩
  exact (c5_editor_fallback_amended 1000 "Alice" (by decide) (by decide) (by decide)).1

/-! ## Lemmas about timeliness -/

theorem subUTCeq (t : PyDateTime) :
    ((if t.tzOffset = none then (⟨t.wall, some 0⟩ : PyDateTime) else t).astimezoneUTC).wall
      = specSubmissionUTC t := by
  obtain ⟨w, tz⟩ := t
  cases tz <;> simp [PyDateTime.astimezoneUTC, specSubmissionUTC]

theorem dlUTCeq (tzdb : String → Option ℤ) (dl : Deadline) (hutc : tzdb "UTC" = some 0) :
    ((localizeDeadline tzdb dl).astimezoneUTC).wall = specDeadlineUTC tzdb dl := by
  obtain ⟨⟨w, tz⟩, dtz⟩ := dl
  cases tz with
  | some off => simp [localizeDeadline, PyDateTime.astimezoneUTC, specDeadlineUTC]
  | none =>
    cases dtz with
    | none => simp [localizeDeadline, PyDateTime.astimezoneUTC, specDeadlineUTC]
    | some z =>
      by_cases hz1 : z = ""
      · subst hz1
        simp [localizeDeadline, PyDateTime.astimezoneUTC, specDeadlineUTC]
      · by_cases hz2 : z = "UTC"
        · subst hz2
          simp [localizeDeadline, PyDateTime.astimezoneUTC, specDeadlineUTC, hutc]
        · cases hq : tzdb z with
          | some off =>
            simp [localizeDeadline, PyDateTime.astimezoneUTC, specDeadlineUTC, hz1, hz2, hq]
          | none =>
            simp [localizeDeadline, PyDateTime.astimezoneUTC, specDeadlineUTC, hz1, hz2, hq]

/-- Shared helper: whenever the effective submission time resolves, the classification
returned by `evaluate_submission_timeliness` is exactly the spec's three-way split of
`delta = submission_time_utc - due_at_utc` at the service's threshold. -/
theorem evaluateClassSpec (svc : InsightsService) (tzdb : String → Option ℤ)
    (fromiso : String → Option PyDateTime) (sub : Submission) (dl : Deadline)
    (t : PyDateTime)
    (hutc : tzdb "UTC" = some 0)
    (ht : effectiveSubmissionTime fromiso sub = Except.ok t) :
    (evaluate_submission_timeliness svc tzdb fromiso sub (some dl)).classification =
      specClassify (3600 * svc.last_minute_threshold_hours) (specDelta tzdb t dl) := by
  unfold evaluate_submission_timeliness timelinessTry
  rw [ht]
  dsimp only
  rw [show ((if t.tzOffset = none then (⟨t.wall, some 0⟩ : PyDateTime) else t).astimezoneUTC).wall
      - ((localizeDeadline tzdb dl).astimezoneUTC).wall = specDelta tzdb t dl from by
    rw [subUTCeq, dlUTCeq tzdb dl hutc]; rfl]
  unfold specClassify
  split_ifs with h1 h2 h3 h3 <;> first
    | rfl
    | omega

/-! ## Claims C1, C6, C10 -/

/-- A faithful fragment of the real zone database: `UTC` resolves to offset 0. -/
def utcOnlyTz : String → Option ℤ := fun s => if s = "UTC" then some 0 else none

/-- A parser that fails on every string (the concrete examples below never parse). -/
def noIso : String → Option PyDateTime := fun _ => none

/-- The spec's boundary example: a naive deadline at 23:00 declared in `UTC`
(seconds of day: 23:00:00 = 82800). -/
def exampleDeadline : Deadline := ⟨⟨82800, none⟩, some "UTC"⟩

/-- A submission whose effective time is its naive `created_at` (no metadata date). -/
def subCreatedAt (w : ℤ) : Submission := ⟨⟨w, none⟩, none⟩

/-- C1 (confirmed): with both timestamps localized to UTC and
`delta = submission_time_utc - due_at_utc`, the classification is `late` iff
`delta > 0`, `last_minute_rush` iff `delta ≤ 0 ∧ |delta| ≤ threshold` (default 1 h),
else `on_time`; for the 23:00 UTC deadline, 22:05 (79500 s) is `last_minute_rush`,
21:00 (75600 s) is `on_time` and 23:05 (83100 s) is `late`. -/
theorem c1_timeliness_classification :
    (∀ (svc : InsightsService) (tzdb : String → Option ℤ)
        (fromiso : String → Option PyDateTime) (sub : Submission) (dl : Deadline)
        (t : PyDateTime), tzdb "UTC" = some 0 →
        effectiveSubmissionTime fromiso sub = Except.ok t →
        (evaluate_submission_timeliness svc tzdb fromiso sub (some dl)).classification =
          specClassify (3600 * svc.last_minute_threshold_hours) (specDelta tzdb t dl))
    ∧ (evaluate_submission_timeliness mkInsightsService utcOnlyTz noIso
        (subCreatedAt 79500) (some exampleDeadline)).classification =
        TimelinessClass.last_minute_rush
    ∧ (evaluate_submission_timeliness mkInsightsService utcOnlyTz noIso
        (subCreatedAt 75600) (some exampleDeadline)).classification =
        TimelinessClass.on_time
    ∧ (evaluate_submission_timeliness mkInsightsService utcOnlyTz noIso
        (subCreatedAt 83100) (some exampleDeadline)).classification =
        TimelinessClass.late :=
  ⟨fun svc tzdb fromiso sub dl t hutc ht => evaluateClassSpec svc tzdb fromiso sub dl t hutc ht,
   rfl, rfl, rfl⟩

theorem c1_timeliness_classification_witness :
    utcOnlyTz "UTC" = some 0
    ∧ effectiveSubmissionTime noIso (subCreatedAt 79500) = Except.ok ⟨79500, none⟩
    ∧ (evaluate_submission_timeliness mkInsightsService utcOnlyTz noIso
        (subCreatedAt 79500) (some exampleDeadline)).classification =
        specClassify (3600 * mkInsightsService.last_minute_threshold_hours)
          (specDelta utcOnlyTz ⟨79500, none⟩ exampleDeadline) :=
  ⟨rfl, rfl, c1_timeliness_classification.1 mkInsightsService utcOnlyTz noIso
    (subCreatedAt 79500) exampleDeadline ⟨79500, none⟩ rfl rfl⟩

/-- C6 (counterexample): the thresholds are not read from any overridable
configuration.  For a configured last-minute window of 2 hours, a submission 90 min
early (77400 s) should be `last_minute_rush`, but the classifier built by
`InsightsService.__init__` still says `on_time` (its window is fixed at 1 hour); and
for a configured major-change threshold of 200, a 70 % change should not be major, but
`create_analysis_snapshot` flags it (its threshold is the literal 50). -/
theorem c6_thresholds_counterexample :
    ((evaluate_submission_timeliness mkInsightsService utcOnlyTz noIso
        (subCreatedAt 77400) (some exampleDeadline)).classification = TimelinessClass.on_time
      ∧ specClassify (3600 * 2) (specDelta utcOnlyTz ⟨77400, none⟩ exampleDeadline) =
          TimelinessClass.last_minute_rush)
    ∧ ((create_analysis_snapshot [snapPrevHundred] "s1" "doc.docx" "abcd1234ef"
          170).major_changes = true
      ∧ isMajorSpec 200 ((((170 : ℚ) - 100) / 100) * 100) = false) := by
  refine ⟨⟨rfl, rfl⟩, ?_, ?_⟩
  · rw [createSnapshotMajor [snapPrevHundred] "s1" "doc.docx" "abcd1234ef" 170
      snapPrevHundred (by decide) (by decide)]
    simp only [isMajorSpec, decide_eq_true_eq, snapPrevHundred]
    norm_num
  · simp only [isMajorSpec, decide_eq_false_iff_not]
    norm_num

/-- C6 (amended): the last-minute window is an `InsightsService` instance attribute the
classifier reads, so the `on_time`/`last_minute_rush` boundary lies exactly at the
attribute's value for every value; but `__init__` fixes 1 hour and 50 % without
consulting the application configuration (only the word-count bounds are configured),
and the major-change threshold of the stored snapshot comparison is the literal 50. -/
theorem c6_thresholds_amended :
    (∀ (svc : InsightsService) (tzdb : String → Option ℤ)
        (fromiso : String → Option PyDateTime) (sub : Submission) (dl : Deadline)
        (t : PyDateTime), tzdb "UTC" = some 0 →
        effectiveSubmissionTime fromiso sub = Except.ok t →
        (evaluate_submission_timeliness svc tzdb fromiso sub (some dl)).classification =
          specClassify (3600 * svc.last_minute_threshold_hours) (specDelta tzdb t dl))
    ∧ mkInsightsService.last_minute_threshold_hours = 1
    ∧ mkInsightsService.major_contribution_threshold = 50
    ∧ (∀ (log : List DocumentSnapshot) (sid fn fh : String) (wc : ℕ)
        (prev : DocumentSnapshot),
        latestSnapshot log (makeFileId fn fh) = some prev → prev.word_count > 0 →
        (create_analysis_snapshot log sid fn fh wc).major_changes =
          isMajorSpec 50 ((((wc : ℚ) - (prev.word_count : ℚ)) / (prev.word_count : ℚ)) * 100)) :=
  ⟨fun svc tzdb fromiso sub dl t hutc ht => evaluateClassSpec svc tzdb fromiso sub dl t hutc ht,
   rfl, rfl,
   fun log sid fn fh wc prev hp hw => createSnapshotMajor log sid fn fh wc prev hp hw⟩

theorem c6_thresholds_amended_witness :
    latestSnapshot [snapPrevHundred] (makeFileId "doc.docx" "abcd1234ef") = some snapPrevHundred
    ∧ snapPrevHundred.word_count > 0
    ∧ (create_analysis_snapshot [snapPrevHundred] "s1" "doc.docx" "abcd1234ef"
        170).major_changes =
        isMajorSpec 50 ((((170 : ℚ) - (snapPrevHundred.word_count : ℚ))
          / (snapPrevHundred.word_count : ℚ)) * 100) :=
  ⟨by decide, by decide,
   c6_thresholds_amended.2.2.2 [snapPrevHundred] "s1" "doc.docx" "abcd1234ef" 170
     snapPrevHundred (by decide) (by decide)⟩

/-- C10 (confirmed): `evaluate_submission_timeliness` is total; whenever its `try` body
raises while a deadline is present, the caught exception yields a well-formed result
with classification `no_deadline` and `details = None` — witnessed concretely by an
unparseable metadata timestamp, so `no_deadline` does not imply that no deadline was
set. -/
theorem c10_error_yields_no_deadline :
    (∀ (svc : InsightsService) (tzdb : String → Option ℤ)
        (fromiso : String → Option PyDateTime) (sub : Submission) (dl : Deadline)
        (e : String),
        timelinessTry svc tzdb fromiso sub dl = Except.error e →
        evaluate_submission_timeliness svc tzdb fromiso sub (some dl) =
          ⟨TimelinessClass.no_deadline, "Error evaluating timeliness: " ++ e, none⟩)
    ∧ ((evaluate_submission_timeliness mkInsightsService utcOnlyTz noIso
          ⟨⟨79500, none⟩, some "not-a-date"⟩ (some exampleDeadline)).classification =
        TimelinessClass.no_deadline
      ∧ (evaluate_submission_timeliness mkInsightsService utcOnlyTz noIso
          ⟨⟨79500, none⟩, some "not-a-date"⟩ (some exampleDeadline)).details = none) := by
  constructor
  · intro svc tzdb fromiso sub dl e h
    unfold evaluate_submission_timeliness
    dsimp only
    rw [h]
  · exact ⟨rfl, rfl⟩

theorem c10_error_yields_no_deadline_witness :
    timelinessTry mkInsightsService utcOnlyTz noIso
        ⟨⟨79500, none⟩, some "not-a-date"⟩ exampleDeadline =
      Except.error ("Invalid isoformat string: " ++ "not-a-date")
    ∧ evaluate_submission_timeliness mkInsightsService utcOnlyTz noIso
        ⟨⟨79500, none⟩, some "not-a-date"⟩ (some exampleDeadline) =
      ⟨TimelinessClass.no_deadline,
       "Error evaluating timeliness: " ++ ("Invalid isoformat string: " ++ "not-a-date"),
       none⟩ :=
  ⟨rfl, c10_error_yields_no_deadline.1 mkInsightsService utcOnlyTz noIso
    ⟨⟨79500, none⟩, some "not-a-date"⟩ exampleDeadline
    ("Invalid isoformat string: " ++ "not-a-date") rfl⟩

/-! ## Lemmas about splitting (for content statistics) -/

theorem dropWhileFirstNot (q : Char → Bool) :
    ∀ (l : List Char) (d : Char) (rest : List Char),
      l.dropWhile q = d :: rest → q d = false := by
  intro l
  induction l with
  | nil => intro d rest h; cases h
  | cons c cs ih =>
    intro d rest h
    rw [List.dropWhile_cons] at h
    by_cases hc : q c
    · rw [if_pos hc] at h
      exact ih d rest h
    · rw [if_neg hc] at h
      cases h
      simpa using hc

theorem splitAllEq (p : Char → Bool) (l : List Char) :
    splitAll p l =
      (l.takeWhile (fun c => !p c)) ::
        (match l.dropWhile (fun c => !p c) with
          | [] => []
          | _ :: rest => splitAll p rest) := by
  induction l with
  | nil => rfl
  | cons c cs ih =>
    rw [List.takeWhile_cons, List.dropWhile_cons]
    by_cases hc : p c
    · have h1 : splitAll p (c :: cs) = [] :: splitAll p cs := by
        simp [splitAll, hc]
      rw [h1]
      simp [hc]
    · have h1 : splitAll p (c :: cs) =
          match splitAll p cs with
          | [] => [[c]]
          | s :: ss => (c :: s) :: ss := by
        simp [splitAll, hc]
      rw [h1, ih]
      simp [hc]

theorem splitPlusEq (p : Char → Bool) (l : List Char) :
    splitPlus p l =
      (l.takeWhile (fun c => !p c)) ::
        (match l.dropWhile (fun c => !p c) with
          | [] => []
          | _ :: rest => splitPlus p (rest.dropWhile p)) := by
  induction l with
  | nil => rfl
  | cons c cs ih =>
    rw [List.takeWhile_cons, List.dropWhile_cons]
    by_cases hc : p c
    · simp only [hc, Bool.not_true, if_neg (by simp : ¬((false : Bool) = true)), if_pos rfl]
      cases cs with
      | nil =>
        have h1 : splitPlus p [c] = [] :: splitPlus p ([] : List Char) := by
          simp [splitPlus, hc]
        rw [h1]
        rfl
      | cons c2 cs2 =>
        by_cases hc2 : p c2
        · have h1 : splitPlus p (c :: c2 :: cs2) = splitPlus p (c2 :: cs2) := by
            simp [splitPlus, hc, hc2]
          rw [h1, ih]
          rw [List.takeWhile_cons, List.dropWhile_cons]
          simp [hc2]
        · have h1 : splitPlus p (c :: c2 :: cs2) = [] :: splitPlus p (c2 :: cs2) := by
            simp [splitPlus, hc, hc2]
          rw [h1]
          rw [List.dropWhile_cons]
          simp [hc2]
    · have h1 : splitPlus p (c :: cs) =
          match splitPlus p cs with
          | [] => [[c]]
          | s :: ss => (c :: s) :: ss := by
        simp [splitPlus, hc]
      rw [h1, ih]
      simp [hc]

theorem splitRunsDropWhile (p : Char → Bool) :
    ∀ l : List Char, splitRuns p (l.dropWhile p) = splitRuns p l := by
  intro l
  induction l with
  | nil => rfl
  | cons c cs ih =>
    rw [List.dropWhile_cons]
    by_cases hc : p c
    · rw [if_pos hc, ih]
      rw [splitRuns]
      simp [hc]
    · rw [if_neg hc]

theorem splitRunsEqFilterAll (p : Char → Bool) :
    ∀ (n : ℕ) (l : List Char), l.length ≤ n →
      (splitAll p l).filter (fun s => s ≠ []) = splitRuns p l := by
  intro n
  induction n with
  | zero =>
    intro l hl
    have hnil : l = [] := by
      cases l with
      | nil => rfl
      | cons a as => simp at hl
    subst hnil
    simp [splitAll, splitRuns]
  | succ n ih =>
    intro l hl
    cases l with
    | nil => simp [splitAll, splitRuns]
    | cons c cs =>
      by_cases hc : p c
      · have h1 : splitAll p (c :: cs) = [] :: splitAll p cs := by
          simp [splitAll, hc]
        have h2 : splitRuns p (c :: cs) = splitRuns p cs := by
          rw [splitRuns]; simp [hc]
        rw [h1, h2, List.filter_cons, if_neg (by simp)]
        exact ih cs (by simp only [List.length_cons] at hl; omega)
      · have h2 : splitRuns p (c :: cs) =
            (c :: cs.takeWhile (fun x => !p x)) ::
              splitRuns p (cs.dropWhile (fun x => !p x)) := by
          rw [splitRuns]; simp [hc]
        rw [splitAllEq, List.takeWhile_cons, List.dropWhile_cons,
          if_pos (by simp [hc]), if_pos (by simp [hc]),
          List.filter_cons, if_pos (by simp), h2]
        congr 1
        cases hd : cs.dropWhile (fun x => !p x) with
        | nil => simp [splitRuns]
        | cons d rest =>
          have hpd : p d = true := by
            have := dropWhileFirstNot (fun x => !p x) cs d rest hd
            simpa using this
          have hrest : rest.length ≤ n := by
            have h3 := dropWhileLenLe (fun x => !p x) cs
            rw [hd] at h3
            simp only [List.length_cons] at h3 hl
            omega
          have h4 : splitRuns p (d :: rest) = splitRuns p rest := by
            rw [splitRuns]; simp [hpd]
          rw [ih rest hrest, h4]

theorem splitRunsEqFilterPlus (p : Char → Bool) :
    ∀ (n : ℕ) (l : List Char), l.length ≤ n →
      (splitPlus p l).filter (fun s => s ≠ []) = splitRuns p l := by
  intro n
  induction n with
  | zero =>
    intro l hl
    have hnil : l = [] := by
      cases l with
      | nil => rfl
      | cons a as => simp at hl
    subst hnil
    simp [splitPlus, splitRuns]
  | succ n ih =>
    intro l hl
    cases l with
    | nil => simp [splitPlus, splitRuns]
    | cons c cs =>
      by_cases hc : p c
      · have h2 : splitRuns p (c :: cs) = splitRuns p cs := by
          rw [splitRuns]; simp [hc]
        rw [h2]
        cases cs with
        | nil =>
          have h1 : splitPlus p [c] = [[], []] := by simp [splitPlus, hc]
          rw [h1]
          simp [splitRuns]
        | cons c2 cs2 =>
          have hlen : (c2 :: cs2).length ≤ n := by
            simp only [List.length_cons] at hl ⊢
            omega
          by_cases hc2 : p c2
          · have h1 : splitPlus p (c :: c2 :: cs2) = splitPlus p (c2 :: cs2) := by
              simp [splitPlus, hc, hc2]
            rw [h1]
            exact ih _ hlen
          · have h1 : splitPlus p (c :: c2 :: cs2) = [] :: splitPlus p (c2 :: cs2) := by
              simp [splitPlus, hc, hc2]
            rw [h1, List.filter_cons, if_neg (by simp)]
            exact ih _ hlen
      · have h2 : splitRuns p (c :: cs) =
            (c :: cs.takeWhile (fun x => !p x)) ::
              splitRuns p (cs.dropWhile (fun x => !p x)) := by
          rw [splitRuns]; simp [hc]
        rw [splitPlusEq, List.takeWhile_cons, List.dropWhile_cons,
          if_pos (by simp [hc]), if_pos (by simp [hc]),
          List.filter_cons, if_pos (by simp), h2]
        congr 1
        cases hd : cs.dropWhile (fun x => !p x) with
        | nil => simp [splitRuns]
        | cons d rest =>
          have hpd : p d = true := by
            have := dropWhileFirstNot (fun x => !p x) cs d rest hd
            simpa using this
          have hrest : (rest.dropWhile p).length ≤ n := by
            have h3 := dropWhileLenLe (fun x => !p x) cs
            have h5 := dropWhileLenLe p rest
            rw [hd] at h3
            simp only [List.length_cons] at h3 hl
            omega
          have h4 : splitRuns p (d :: rest) = splitRuns p rest := by
            rw [splitRuns]; simp [hpd]
          rw [ih _ hrest, splitRunsDropWhile, h4]

theorem splitRunsSound (p : Char → Bool) :
    ∀ (n : ℕ) (l : List Char), l.length ≤ n →
      ∀ s ∈ splitRuns p l, s ≠ [] ∧ ∀ c ∈ s, p c = false := by
  intro n
  induction n with
  | zero =>
    intro l hl
    have hnil : l = [] := by
      cases l with
      | nil => rfl
      | cons a as => simp at hl
    subst hnil
    intro s hs
    simp [splitRuns] at hs
  | succ n ih =>
    intro l hl
    cases l with
    | nil => intro s hs; simp [splitRuns] at hs
    | cons c cs =>
      by_cases hc : p c
      · have h2 : splitRuns p (c :: cs) = splitRuns p cs := by
          rw [splitRuns]; simp [hc]
        rw [h2]
        exact ih cs (by simp only [List.length_cons] at hl; omega)
      · have h2 : splitRuns p (c :: cs) =
            (c :: cs.takeWhile (fun x => !p x)) ::
              splitRuns p (cs.dropWhile (fun x => !p x)) := by
          rw [splitRuns]; simp [hc]
        rw [h2]
        intro s hs
        rcases List.mem_cons.mp hs with rfl | hs
        · refine ⟨by simp, ?_⟩
          intro x hx
          rcases List.mem_cons.mp hx with rfl | hx
          · simpa using hc
          · have := List.mem_takeWhile_imp hx
            simpa using this
        · have hlen : (cs.dropWhile (fun x => !p x)).length ≤ n := by
            have h3 := dropWhileLenLe (fun x => !p x) cs
            simp only [List.length_cons] at hl
            omega
          exact ih _ hlen s hs

theorem dropWhileIdOfAll (q : Char → Bool) (l : List Char)
    (h : ∀ c ∈ l, q c = false) : l.dropWhile q = l := by
  cases l with
  | nil => rfl
  | cons c cs =>
    rw [List.dropWhile_cons, if_neg (by simp [h c (List.mem_cons_self c cs)])]

theorem stripCharsId (s : List Char) (h : ∀ c ∈ s, isPyWhitespace c = false) :
    stripChars s = s := by
  unfold stripChars
  rw [dropWhileIdOfAll _ _ h]
  rw [dropWhileIdOfAll _ _ (fun c hc => h c (List.mem_reverse.mp hc))]
  exact List.reverse_reverse s

theorem codeWordsEq (l : List Char) : codeWords l = splitRuns isPyWhitespace l := by
  unfold codeWords pythonSplit
  have hmem := splitRunsSound isPyWhitespace l.length l (le_refl _)
  rw [List.map_eq_map_iff.mpr (fun s hs => stripCharsId s (hmem s hs).2)]
  rw [List.map_id']
  rw [List.filter_eq_self.mpr (fun s hs => by simp [(hmem s hs).1])]

theorem codeWordCountEq (l : List Char) : (codeWords l).length = specWordCount l := by
  rw [codeWordsEq]
  unfold specWordCount
  rw [splitRunsEqFilterAll isPyWhitespace l.length l (le_refl _)]

theorem filterStripNE (X : List (List Char)) :
    X.filter (fun s => stripChars s ≠ []) =
      (X.filter (fun s => s ≠ [])).filter (fun s => stripChars s ≠ []) := by
  rw [List.filter_filter]
  apply List.filter_congr
  intro a ha
  by_cases hae : a = []
  · subst hae
    simp [stripChars]
  · simp [hae]

theorem codeSentenceCountEq (l : List Char) :
    (codeSentences l).length = specSentenceCount l := by
  unfold codeSentences specSentenceCount
  rw [List.filter_map, List.filter_map, List.length_map, List.length_map]
  rw [show ((fun s : List Char => decide (s ≠ [])) ∘ stripChars) =
      (fun s : List Char => decide (stripChars s ≠ [])) from rfl]
  rw [filterStripNE (splitPlus isSentenceEnd l), filterStripNE (splitAll isSentenceEnd l)]
  rw [splitRunsEqFilterPlus isSentenceEnd l.length l (le_refl _),
    splitRunsEqFilterAll isSentenceEnd l.length l (le_refl _)]

/-! ## Claim C7 -/

/-- C7 (confirmed): `compute_content_statistics` is total; empty or absent text yields
the all-zero statistics (including zero estimated pages); otherwise the word count is
the number of whitespace-delimited non-empty tokens, the sentence count the number of
non-empty trimmed segments of a split on `[.!?]`, the paragraph count the number of
non-empty trimmed segments of a split on line breaks, and the estimated pages are
`max(1, round(word_count / 250))` (Python's banker's rounding). -/
theorem c7_content_statistics (text : Option String) :
    ((text = none ∨ text = some "") → compute_content_statistics text = zeroStats)
    ∧ (∀ s : String, text = some s → s ≠ "" →
        (compute_content_statistics text).word_count = specWordCount s.data
        ∧ (compute_content_statistics text).sentence_count = specSentenceCount s.data
        ∧ (compute_content_statistics text).paragraph_count = specParagraphCount s.data
        ∧ (compute_content_statistics text).estimated_pages =
            (max 1 (pyRound ((specWordCount s.data : ℚ) / 250))).toNat
        ∧ (compute_content_statistics text).page_count =
            (compute_content_statistics text).estimated_pages) := by
  constructor
  · rintro (rfl | rfl)
    · rfl
    · rfl
  · rintro s rfl hne
    refine ⟨?_, ?_, ?_, ?_, ?_⟩
    · show (if s = "" then zeroStats else _).word_count = _
      rw [if_neg hne]
      exact codeWordCountEq s.data
    · show (if s = "" then zeroStats else _).sentence_count = _
      rw [if_neg hne]
      exact codeSentenceCountEq s.data
    · show (if s = "" then zeroStats else _).paragraph_count = _
      rw [if_neg hne]
      rfl
    · show (if s = "" then zeroStats else _).estimated_pages = _
      rw [if_neg hne]
      show (max 1 (pyRound (((codeWords s.data).length : ℚ) / 250))).toNat = _
      rw [codeWordCountEq]
    · show (compute_content_statistics (some s)).page_count =
        (compute_content_statistics (some s)).estimated_pages
      unfold compute_content_statistics
      dsimp only
      rw [if_neg hne]

/-- The concrete text used by the C7 witness. -/
def exText : String := "Hello world. How are you?\nSecond paragraph!"

theorem c7_content_statistics_witness :
    exText ≠ ""
    ∧ ((compute_content_statistics (some exText)).word_count = specWordCount exText.data
      ∧ (compute_content_statistics (some exText)).sentence_count = specSentenceCount exText.data
      ∧ (compute_content_statistics (some exText)).paragraph_count = specParagraphCount exText.data
      ∧ (compute_content_statistics (some exText)).estimated_pages =
          (max 1 (pyRound ((specWordCount exText.data : ℚ) / 250))).toNat
      ∧ (compute_content_statistics (some exText)).page_count =
          (compute_content_statistics (some exText)).estimated_pages) :=
  ⟨by decide, (c7_content_statistics (some exText)).2 exText rfl (by decide)⟩
